import Mathlib

/-!
# Verification of the investment fee-impact calculator

Shallow embedding of the month-stepping investment simulator
(`InvestmentCalculator` in the repository's calculator module) and proofs
about it.  The `decimal.js` exact-decimal substrate is modelled by `ℚ`;
the JavaScript `number`/`Math.pow` arithmetic that appears only inside the
IRR root-finder is abstracted by an explicit function parameter `pow`
(for `Math.pow`) and `msOf` (for `Date.getTime` of a month offset), since
no claim depends on the numeric values these produce.  Calendar dates are
modelled by their month offset from the configured start date (`ℤ`), which
is the only attribute of a date the engine's arithmetic consumes.
-/

namespace FeeImpact

/-- One fee: a quoted rate `value` divided by `applied_time_unit` gives the
per-step rate.  The display-only `name`, `description`, `type` and
`quote_time_unit` fields carry no semantics and are omitted. -/
structure Fee where
  value : ℚ
  applied_time_unit : ℚ

/-- The default return configuration (same shape as `Fee`). -/
structure Returns where
  value : ℚ
  applied_time_unit : ℚ

/-- A per-month return override: `value` is a percentage; the dynamically
attached `isEmpty` sentinel forces a zero return for that month. -/
structure MonthlyReturn where
  month : ℕ
  value : ℚ
  isEmpty : Bool

/-- Global parameters.  `start_date`/`end_date` are kept only as
(year, month) pairs, the sole components the engine reads from them. -/
structure GlobalParams where
  startYear : ℤ
  startMonth : ℤ
  endYear : ℤ
  endMonth : ℤ
  starting_principle : ℚ
  monthly_contribution : ℚ
  num_months : ℤ

/-- The configuration object handed to the calculator. -/
structure InvestmentConfig where
  fees : List Fee
  returns : Returns
  monthlyReturns : Option (List MonthlyReturn)
  global : GlobalParams

/-- One row of the produced table.  The `date` field of the source row is
display-only and omitted (the row's `month` index determines it). -/
structure TableRow where
  month : ℕ
  startingPrinciple : ℚ
  endingPrinciple : ℚ
  returns : ℚ
  fees : ℚ
  valueWithoutFees : ℚ
  cumulativeFees : ℚ
  cumulativeContributions : ℚ
  feesPercentage : ℚ
  momGrossReturnRate : ℚ
  totalGrossReturnRate : ℚ
  momNetReturnRate : ℚ
  momNetExclContribReturnRate : ℚ
  totalNetReturnRate : ℚ
  timeWeightedReturn : ℚ
  moneyWeightedReturn : ℚ

/-- Out-of-range table access placeholder (`tableData[i]` for `i` outside
the built range is `undefined` in the source; no claim exercises it). -/
def dummyRow : TableRow :=
  { month := 0, startingPrinciple := 0, endingPrinciple := 0, returns := 0,
    fees := 0, valueWithoutFees := 0, cumulativeFees := 0,
    cumulativeContributions := 0, feesPercentage := 0,
    momGrossReturnRate := 0, totalGrossReturnRate := 0,
    momNetReturnRate := 0, momNetExclContribReturnRate := 0,
    totalNetReturnRate := 0, timeWeightedReturn := 0,
    moneyWeightedReturn := 0 }

/-- `tableData[i]`. -/
def rowAt (table : List TableRow) (i : ℕ) : TableRow :=
  table.getD i dummyRow

/-- `calculateMonthDifference`: explicit `num_months` when positive,
otherwise the year/month span between start and end dates. -/
def calculateMonthDifference (cfg : InvestmentConfig) : ℤ :=
  if cfg.global.num_months > 0 then
    cfg.global.num_months
  else
    (cfg.global.endYear - cfg.global.startYear) * 12 +
      (cfg.global.endMonth - cfg.global.startMonth)

/-- `calculateDefaultMonthlyReturnRate`: `returns.value / returns.applied_time_unit`. -/
def defaultMonthlyReturnRate (cfg : InvestmentConfig) : ℚ :=
  cfg.returns.value / cfg.returns.applied_time_unit

/-- `getMonthlyReturnRate`: the override-resolved per-step return rate. -/
def getMonthlyReturnRate (cfg : InvestmentConfig) (month : ℕ) : ℚ :=
  match cfg.monthlyReturns with
  | some l =>
    if l.length > 0 then
      match l.find? (fun r => r.month == month) with
      | some monthlyReturn =>
        if monthlyReturn.isEmpty then (0 : ℚ) else monthlyReturn.value / 100
      | none => defaultMonthlyReturnRate cfg
    else defaultMonthlyReturnRate cfg
  | none => defaultMonthlyReturnRate cfg

/-- `initializeTable`: the month-0 identity row. -/
def initRow (cfg : InvestmentConfig) : TableRow :=
  { month := 0,
    startingPrinciple := cfg.global.starting_principle,
    endingPrinciple := cfg.global.starting_principle,
    returns := 0,
    fees := 0,
    valueWithoutFees := cfg.global.starting_principle,
    cumulativeFees := 0,
    cumulativeContributions := cfg.global.starting_principle,
    feesPercentage := 0,
    momGrossReturnRate := 0,
    totalGrossReturnRate := 0,
    momNetReturnRate := 0,
    momNetExclContribReturnRate := 0,
    totalNetReturnRate := 0,
    timeWeightedReturn := 0,
    moneyWeightedReturn := 0 }

/-- `calculateMonthlyFees`: sum over fees of `principle * value / applied_time_unit`. -/
def calculateMonthlyFees (cfg : InvestmentConfig) (principle : ℚ) : ℚ :=
  cfg.fees.foldl
    (fun total fee => total + principle * (fee.value / fee.applied_time_unit)) 0

/-- The step-4.2 core of `calculateMonth`: every field of row `month`
except the two analytics (`timeWeightedReturn`, `moneyWeightedReturn`),
which the source first pushes as zero placeholders. -/
def coreRow (cfg : InvestmentConfig) (month : ℕ) (prevRow : TableRow) : TableRow :=
  let c := cfg.global.monthly_contribution
  let startingPrinciple :=
    if c > 0 then prevRow.endingPrinciple + c else prevRow.endingPrinciple
  let cumulativeContributions :=
    if c > 0 then prevRow.cumulativeContributions + c
    else prevRow.cumulativeContributions
  let monthlyReturnRate := getMonthlyReturnRate cfg month
  let monthlyReturn := startingPrinciple * monthlyReturnRate
  let principleAfterReturns := startingPrinciple + monthlyReturn
  let monthlyFee := calculateMonthlyFees cfg principleAfterReturns
  let endingPrinciple := principleAfterReturns - monthlyFee
  let cumulativeFees := prevRow.cumulativeFees + monthlyFee
  let valueWithoutFees :=
    if c > 0 then
      prevRow.valueWithoutFees + c + (prevRow.valueWithoutFees + c) * monthlyReturnRate
    else
      prevRow.valueWithoutFees + prevRow.valueWithoutFees * monthlyReturnRate
  { month := month,
    startingPrinciple := startingPrinciple,
    endingPrinciple := endingPrinciple,
    returns := monthlyReturn,
    fees := monthlyFee,
    valueWithoutFees := valueWithoutFees,
    cumulativeFees := cumulativeFees,
    cumulativeContributions := cumulativeContributions,
    feesPercentage := monthlyFee / startingPrinciple * 100,
    momGrossReturnRate := monthlyReturnRate * 100,
    totalGrossReturnRate := (valueWithoutFees / cumulativeContributions - 1) * 100,
    momNetReturnRate := (endingPrinciple / startingPrinciple - 1) * 100,
    momNetExclContribReturnRate :=
      (endingPrinciple / prevRow.endingPrinciple - 1) * 100,
    totalNetReturnRate := (endingPrinciple / cumulativeContributions - 1) * 100,
    timeWeightedReturn := 0,
    moneyWeightedReturn := 0 }

/-- `calculateSinglePeriodReturn`: `(endValue - contribution) / startValue - 1`
as a percentage, read from committed rows `month - 1` and `month`.  The
source's guard throwing when `month` is not yet in the table is a branch
unreachable from `calculate` (the caller only passes smaller indices) and
is modelled by the `rowAt` out-of-range default. -/
def calculateSinglePeriodReturn (cfg : InvestmentConfig)
    (table : List TableRow) (month : ℕ) : ℚ :=
  let prevRow := rowAt table (month - 1)
  let currentRow := rowAt table month
  let startValue := prevRow.endingPrinciple
  let endValue := currentRow.endingPrinciple
  let contribution := cfg.global.monthly_contribution
  if contribution > 0 then
    ((endValue - contribution) / startValue - 1) * 100
  else
    (endValue / startValue - 1) * 100

/-- `calculateTimeWeightedReturn`: geometric linking of the committed
period returns 1..m-1 with a locally replayed current-month return (the
replay uses `defaultMonthlyReturnRate`). -/
def calculateTimeWeightedReturn (cfg : InvestmentConfig)
    (table : List TableRow) (currentMonth : ℕ) : ℚ :=
  if currentMonth = 0 then 0
  else
    let periodReturns :=
      (List.range' 1 (currentMonth - 1)).map
        (fun i => calculateSinglePeriodReturn cfg table i)
    let prevRow := rowAt table (currentMonth - 1)
    let startValue := prevRow.endingPrinciple
    let contribution :=
      if cfg.global.monthly_contribution > 0 then
        cfg.global.monthly_contribution
      else (0 : ℚ)
    let principleWithContribution := startValue + contribution
    let monthlyReturn := principleWithContribution * defaultMonthlyReturnRate cfg
    let principleAfterReturns := principleWithContribution + monthlyReturn
    let monthlyFee := calculateMonthlyFees cfg principleAfterReturns
    let endValue := principleAfterReturns - monthlyFee
    let periodReturn :=
      if contribution > 0 then
        ((endValue - contribution) / startValue - 1) * 100
      else
        (endValue / startValue - 1) * 100
    let allReturns := periodReturns ++ [periodReturn]
    (allReturns.foldl (fun acc r => acc * (1 + r / 100)) 1 - 1) * 100

/-- Milliseconds per year used by `datesToYearFractions`
(`365.25 * 24 * 60 * 60 * 1000`). -/
def msPerYear : ℚ := 31557600000

/-- `datesToYearFractions`: fractional-year offsets of each date from the
first, with `msOf` abstracting `Date.getTime` on month offsets. -/
def datesToYearFractions (msOf : ℤ → ℚ) (dates : List ℤ) : List ℚ :=
  match dates with
  | [] => []
  | firstDate :: _ =>
    dates.map (fun date => (msOf date - msOf firstDate) / msPerYear)

/-- `calculateNPVAndDerivative`: NPV and its rate-derivative at `rate`,
with `pow` abstracting `Math.pow`.  The source indexes the two arrays in
lock-step, which `zip` reproduces for the equal-length schedules it is
given. -/
def calculateNPVAndDerivative (pow : ℚ → ℚ → ℚ)
    (cashFlows : List ℚ) (yearFractions : List ℚ) (rate : ℚ) : ℚ × ℚ :=
  (cashFlows.zip yearFractions).foldl
    (fun acc p =>
      let discountFactor := pow (1 + rate) (-p.2)
      (acc.1 + p.1 * discountFactor,
        if p.2 = 0 then acc.2
        else acc.2 - p.2 * p.1 * discountFactor / (1 + rate)))
    (0, 0)

/-- The `PRECISION` constant `0.0000001`. -/
def irrPrecision : ℚ := 1 / 10000000

/-- The Newton-Raphson loop of `calculateImprovedIRR`, with an explicit
fuel bound (the source's `MAX_ITERATIONS = 100`).  Returns the resulting
rate together with the number of loop iterations entered. -/
def irrLoop (npvD : ℚ → ℚ × ℚ) : ℕ → ℚ → ℚ × ℕ
  | 0, rate => (rate, 0)
  | fuel + 1, rate =>
    let p := npvD rate
    if |p.1| < irrPrecision then (rate, 1)
    else if |p.2| < irrPrecision then (rate, 1)
    else
      let newRate := rate - p.1 / p.2
      if |newRate - rate| < irrPrecision then (newRate, 1)
      else
        let bounded :=
          if newRate < -(99 / 100 : ℚ) then -(99 / 100 : ℚ)
          else if newRate > 100 then (100 : ℚ)
          else newRate
        let rest := irrLoop npvD fuel bounded
        (rest.1, rest.2 + 1)

/-- The rate produced by `calculateImprovedIRR` after the length check:
initial guess `0.1`, at most 100 Newton-Raphson iterations. -/
def irrSolve (pow : ℚ → ℚ → ℚ) (msOf : ℤ → ℚ)
    (cashFlows : List ℚ) (dates : List ℤ) : ℚ :=
  (irrLoop
    (calculateNPVAndDerivative pow cashFlows (datesToYearFractions msOf dates))
    100 (1 / 10)).1

/-- Iterations the Newton-Raphson loop performs for a given schedule. -/
def irrIterations (pow : ℚ → ℚ → ℚ) (msOf : ℤ → ℚ)
    (cashFlows : List ℚ) (dates : List ℤ) : ℕ :=
  (irrLoop
    (calculateNPVAndDerivative pow cashFlows (datesToYearFractions msOf dates))
    100 (1 / 10)).2

/-- `calculateImprovedIRR`: throws on mismatched schedule lengths, before
any iteration; otherwise runs the Newton-Raphson solve. -/
def calculateImprovedIRR (pow : ℚ → ℚ → ℚ) (msOf : ℤ → ℚ)
    (cashFlows : List ℚ) (dates : List ℤ) : Except String ℚ :=
  if cashFlows.length ≠ dates.length then
    Except.error "Cash flows and dates arrays must have the same length"
  else
    Except.ok (irrSolve pow msOf cashFlows dates)

/-- The final-value cash flow of the MWRR schedule: the committed row when
present, otherwise a local replay with the default monthly rate. -/
def mwrrFinalValue (cfg : InvestmentConfig)
    (table : List TableRow) (currentMonth : ℕ) : ℚ :=
  if table.length > currentMonth then
    (rowAt table currentMonth).endingPrinciple
  else
    let prevRow := rowAt table (currentMonth - 1)
    let sp0 := prevRow.endingPrinciple
    let startingPrinciple :=
      if cfg.global.monthly_contribution > 0 then
        sp0 + cfg.global.monthly_contribution
      else sp0
    let monthlyReturn := startingPrinciple * defaultMonthlyReturnRate cfg
    let principleAfterReturns := startingPrinciple + monthlyReturn
    let monthlyFee := calculateMonthlyFees cfg principleAfterReturns
    principleAfterReturns - monthlyFee

/-- The cash-flow column of the schedule `calculateMoneyWeightedReturn`
hands to the IRR helper. -/
def mwrrCashFlows (cfg : InvestmentConfig)
    (table : List TableRow) (currentMonth : ℕ) : List ℚ :=
  [-cfg.global.starting_principle] ++
    (if cfg.global.monthly_contribution ≠ 0 then
      (List.range' 1 currentMonth).map
        (fun _ => -cfg.global.monthly_contribution)
    else []) ++
    [mwrrFinalValue cfg table currentMonth]

/-- The date column of the same schedule, as month offsets. -/
def mwrrDates (cfg : InvestmentConfig)
    (table : List TableRow) (currentMonth : ℕ) : List ℤ :=
  [(0 : ℤ)] ++
    (if cfg.global.monthly_contribution ≠ 0 then
      (List.range' 1 currentMonth).map (fun i => Int.ofNat i)
    else []) ++
    [(currentMonth : ℤ)]

/-- `calculateMoneyWeightedReturn`.  The `Except.error` fallback is
unreachable: the schedule's two columns always have equal length (proved
below), so the source's exception never fires. -/
def calculateMoneyWeightedReturn (pow : ℚ → ℚ → ℚ) (msOf : ℤ → ℚ)
    (cfg : InvestmentConfig) (table : List TableRow) (currentMonth : ℕ) : ℚ :=
  if currentMonth = 0 then 0
  else if cfg.global.monthly_contribution = 0 then
    let prevRow := rowAt table (currentMonth - 1)
    let startingPrinciple := prevRow.endingPrinciple
    let monthlyReturn := startingPrinciple * defaultMonthlyReturnRate cfg
    let principleAfterReturns := startingPrinciple + monthlyReturn
    let monthlyFee := calculateMonthlyFees cfg principleAfterReturns
    let endingPrinciple := principleAfterReturns - monthlyFee
    (endingPrinciple / cfg.global.starting_principle - 1) * 100
  else
    match calculateImprovedIRR pow msOf
        (mwrrCashFlows cfg table currentMonth)
        (mwrrDates cfg table currentMonth) with
    | Except.ok irr => irr * 100
    | Except.error _ => 0

/-- The fully patched row `calculateMonth` leaves at index `month`:
the core row with the two analytics written back. -/
def stepRow (pow : ℚ → ℚ → ℚ) (msOf : ℤ → ℚ) (cfg : InvestmentConfig)
    (table : List TableRow) (month : ℕ) : TableRow :=
  let core := coreRow cfg month (rowAt table (month - 1))
  let table2 := table ++ [core]
  { core with
    timeWeightedReturn := calculateTimeWeightedReturn cfg table2 month,
    moneyWeightedReturn :=
      calculateMoneyWeightedReturn pow msOf cfg table2 month }

/-- `calculateMonth`: append row `month` (two-phase push-then-patch of the
source collapsed into appending the patched row). -/
def calculateMonth (pow : ℚ → ℚ → ℚ) (msOf : ℤ → ℚ) (cfg : InvestmentConfig)
    (table : List TableRow) (month : ℕ) : List TableRow :=
  table ++ [stepRow pow msOf cfg table month]

/-- The table after processing months `1..n` in order. -/
def calcTable (pow : ℚ → ℚ → ℚ) (msOf : ℤ → ℚ) (cfg : InvestmentConfig) :
    ℕ → List TableRow
  | 0 => [initRow cfg]
  | n + 1 => calculateMonth pow msOf cfg (calcTable pow msOf cfg n) (n + 1)

/-- `calculate`: initialize then run `calculateAllMonths` for months
`1..monthDiff` (an empty loop when the resolved count is non-positive). -/
def calculate (pow : ℚ → ℚ → ℚ) (msOf : ℤ → ℚ)
    (cfg : InvestmentConfig) : List TableRow :=
  calcTable pow msOf cfg (calculateMonthDifference cfg).toNat

/-- The sum of the per-month fee rates, `Σ fee.value / fee.applied_time_unit`. -/
def feeRateSum (cfg : InvestmentConfig) : ℚ :=
  (cfg.fees.map (fun fee => fee.value / fee.applied_time_unit)).sum

/-- The spec's step-2 return-rate resolution, stated the way §4.2 words it:
the override entry for month `m` when one exists (zero for an "empty"
override, else the stored percentage over 100), otherwise the default
monthly rate. -/
def specResolvedRate (cfg : InvestmentConfig) (month : ℕ) : ℚ :=
  match (cfg.monthlyReturns.getD []).find? (fun r => r.month == month) with
  | some o => if o.isEmpty then 0 else o.value / 100
  | none => defaultMonthlyReturnRate cfg

/-- The spec's per-period TWRR return for a committed period `i`:
`(endValue_i - contribution_i) / startValue_i - 1` as a percentage, with
`contribution_i` the contribution actually added that period (zero when
none) and `startValue_i` the previous row's ending principal. -/
def specPeriodReturn (cfg : InvestmentConfig)
    (table : List TableRow) (i : ℕ) : ℚ :=
  let contribution :=
    if cfg.global.monthly_contribution > 0 then
      cfg.global.monthly_contribution
    else (0 : ℚ)
  (((rowAt table i).endingPrinciple - contribution) /
      (rowAt table (i - 1)).endingPrinciple - 1) * 100

/-- The claim's TWRR formula for row `m`, parametrised by the rate `rate`
the month-`m` local replay uses: contribute, apply `rate`, apply fees,
take the period return, then geometrically link it with the committed
period returns `1..m-1`. -/
def specTWRR (cfg : InvestmentConfig) (rate : ℚ)
    (table : List TableRow) (m : ℕ) : ℚ :=
  let contribution :=
    if cfg.global.monthly_contribution > 0 then
      cfg.global.monthly_contribution
    else (0 : ℚ)
  let startValue := (rowAt table (m - 1)).endingPrinciple
  let principleAfterReturns := (startValue + contribution) * (1 + rate)
  let endValue :=
    principleAfterReturns - calculateMonthlyFees cfg principleAfterReturns
  let rm := ((endValue - contribution) / startValue - 1) * 100
  let factors :=
    (List.range' 1 (m - 1)).map
      (fun i => 1 + specPeriodReturn cfg table i / 100)
  (factors.prod * (1 + rm / 100) - 1) * 100

/-- Claim C1's reading of the TWRR: the month-`m` replay resolves the
return rate with overrides (`getMonthlyReturnRate`). -/
def specTWRRResolved (cfg : InvestmentConfig)
    (table : List TableRow) (m : ℕ) : ℚ :=
  specTWRR cfg (getMonthlyReturnRate cfg m) table m

/-- The TWRR formula the code actually implements: the month-`m` replay
uses the default monthly rate, ignoring overrides. -/
def specTWRRDefault (cfg : InvestmentConfig)
    (table : List TableRow) (m : ℕ) : ℚ :=
  specTWRR cfg (defaultMonthlyReturnRate cfg) table m

/-- The same configuration with the monthly contribution replaced by
zero (the comparison point of claim C10). -/
def zeroContrib (cfg : InvestmentConfig) : InvestmentConfig :=
  { cfg with global := { cfg.global with monthly_contribution := 0 } }

/-- A trivial stand-in for `Math.pow` (valid wherever the result does not
depend on the float model). -/
def powZero : ℚ → ℚ → ℚ := fun _ _ => 0

/-- A trivial stand-in for `Date.getTime`. -/
def msZero : ℤ → ℚ := fun _ => 0

/-- Concrete configuration of claim C3: starting principal 100, zero
contribution, 12% annual return over 12 steps, one 12% annual fee over 12
steps. -/
def cfgC3 : InvestmentConfig :=
  { fees := [{ value := 12 / 100, applied_time_unit := 12 }],
    returns := { value := 12 / 100, applied_time_unit := 12 },
    monthlyReturns := none,
    global :=
      { startYear := 2024, startMonth := 0, endYear := 2025, endMonth := 0,
        starting_principle := 100, monthly_contribution := 0,
        num_months := 12 } }

/-- Zero-contribution configuration with a 50% override on month 1 (used
to separate the replayed default rate from the override-resolved rate). -/
def cfgOverride : InvestmentConfig :=
  { fees := [],
    returns := { value := 12 / 100, applied_time_unit := 12 },
    monthlyReturns := some [{ month := 1, value := 50, isEmpty := false }],
    global :=
      { startYear := 2024, startMonth := 0, endYear := 2024, endMonth := 0,
        starting_principle := 100, monthly_contribution := 0,
        num_months := 1 } }

/-- Configuration with a negative fee rate (nothing in the data model
forbids it): −12% annual fee over 12 steps, zero return. -/
def cfgNegFee : InvestmentConfig :=
  { fees := [{ value := -(12 / 100), applied_time_unit := 12 }],
    returns := { value := 0, applied_time_unit := 12 },
    monthlyReturns := none,
    global :=
      { startYear := 2024, startMonth := 0, endYear := 2024, endMonth := 0,
        starting_principle := 100, monthly_contribution := 0,
        num_months := 1 } }

/-- A small no-override configuration with two months and a contribution,
used to instantiate universally quantified theorems. -/
def cfgPlain : InvestmentConfig :=
  { fees := [{ value := 3 / 100, applied_time_unit := 12 }],
    returns := { value := 12 / 100, applied_time_unit := 12 },
    monthlyReturns := none,
    global :=
      { startYear := 2024, startMonth := 0, endYear := 2024, endMonth := 2,
        starting_principle := 100, monthly_contribution := 0,
        num_months := 2 } }

/-- `cfgPlain` with a strictly negative monthly contribution. -/
def cfgNegContrib : InvestmentConfig :=
  { cfgPlain with
    global := { cfgPlain.global with monthly_contribution := -(5 : ℚ) } }

/-- `cfgPlain` with the contribution replaced by zero. -/
def cfgZeroContrib : InvestmentConfig :=
  { cfgPlain with
    global := { cfgPlain.global with monthly_contribution := 0 } }

/-! ## Structural lemmas about the row sequence -/

theorem rowAt_append_of_lt (t : List TableRow) (r : TableRow) (i : ℕ)
    (h : i < t.length) : rowAt (t ++ [r]) i = rowAt t i := by
  simp [rowAt, List.getD_eq_getElem?_getD, List.getElem?_append_left h]

theorem rowAt_append_length (t : List TableRow) (r : TableRow) :
    rowAt (t ++ [r]) t.length = r := by
  simp [rowAt, List.getD_eq_getElem?_getD, List.getElem?_concat_length]

theorem calcTable_succ (pow : ℚ → ℚ → ℚ) (msOf : ℤ → ℚ)
    (cfg : InvestmentConfig) (n : ℕ) :
    calcTable pow msOf cfg (n + 1) =
      calcTable pow msOf cfg n ++
        [stepRow pow msOf cfg (calcTable pow msOf cfg n) (n + 1)] :=
  rfl

theorem calcTable_length (pow : ℚ → ℚ → ℚ) (msOf : ℤ → ℚ)
    (cfg : InvestmentConfig) : ∀ n, (calcTable pow msOf cfg n).length = n + 1
  | 0 => rfl
  | n + 1 => by
    rw [calcTable_succ, List.length_append,
      calcTable_length pow msOf cfg n]
    rfl

theorem rowAt_calcTable_step (pow : ℚ → ℚ → ℚ) (msOf : ℤ → ℚ)
    (cfg : InvestmentConfig) {m n : ℕ} (h : m ≤ n) :
    rowAt (calcTable pow msOf cfg (n + 1)) m = rowAt (calcTable pow msOf cfg n) m := by
  rw [calcTable_succ]
  exact rowAt_append_of_lt _ _ _ (by rw [calcTable_length]; omega)

theorem rowAt_calcTable_of_le (pow : ℚ → ℚ → ℚ) (msOf : ℤ → ℚ)
    (cfg : InvestmentConfig) : ∀ {m n : ℕ}, m ≤ n →
    rowAt (calcTable pow msOf cfg n) m = rowAt (calcTable pow msOf cfg m) m := by
  intro m n h
  induction n with
  | zero => cases Nat.le_zero.mp h; rfl
  | succ n ih =>
    rcases Nat.lt_succ_iff_lt_or_eq.mp (Nat.lt_succ_of_le h) with h' | h'
    · rw [rowAt_calcTable_step pow msOf cfg (Nat.lt_succ_iff.mp h')]
      exact ih (Nat.lt_succ_iff.mp h')
    · subst h'; rfl

theorem rowAt_calcTable_last (pow : ℚ → ℚ → ℚ) (msOf : ℤ → ℚ)
    (cfg : InvestmentConfig) (n : ℕ) :
    rowAt (calcTable pow msOf cfg (n + 1)) (n + 1) =
      stepRow pow msOf cfg (calcTable pow msOf cfg n) (n + 1) := by
  rw [calcTable_succ]
  have h := rowAt_append_length (calcTable pow msOf cfg n)
    (stepRow pow msOf cfg (calcTable pow msOf cfg n) (n + 1))
  rwa [calcTable_length] at h

theorem rowAt_calcTable_eq_stepRow (pow : ℚ → ℚ → ℚ) (msOf : ℤ → ℚ)
    (cfg : InvestmentConfig) {m n : ℕ} (h : m + 1 ≤ n) :
    rowAt (calcTable pow msOf cfg n) (m + 1) =
      stepRow pow msOf cfg (calcTable pow msOf cfg m) (m + 1) := by
  rw [rowAt_calcTable_of_le pow msOf cfg h]
  exact rowAt_calcTable_last pow msOf cfg m

theorem rowAt_calcTable_zero (pow : ℚ → ℚ → ℚ) (msOf : ℤ → ℚ)
    (cfg : InvestmentConfig) (n : ℕ) :
    rowAt (calcTable pow msOf cfg n) 0 = initRow cfg := by
  rw [rowAt_calcTable_of_le pow msOf cfg (Nat.zero_le n)]; rfl

theorem stepRow_month (pow : ℚ → ℚ → ℚ) (msOf : ℤ → ℚ)
    (cfg : InvestmentConfig) (t : List TableRow) (m : ℕ) :
    (stepRow pow msOf cfg t m).month = m :=
  rfl

theorem stepRow_eq_update (pow : ℚ → ℚ → ℚ) (msOf : ℤ → ℚ)
    (cfg : InvestmentConfig) (t : List TableRow) (m : ℕ) :
    stepRow pow msOf cfg t m =
      { coreRow cfg m (rowAt t (m - 1)) with
        timeWeightedReturn :=
          calculateTimeWeightedReturn cfg
            (t ++ [coreRow cfg m (rowAt t (m - 1))]) m,
        moneyWeightedReturn :=
          calculateMoneyWeightedReturn pow msOf cfg
            (t ++ [coreRow cfg m (rowAt t (m - 1))]) m } :=
  rfl

theorem stepRow_startingPrinciple (pow : ℚ → ℚ → ℚ) (msOf : ℤ → ℚ)
    (cfg : InvestmentConfig) (t : List TableRow) (m : ℕ) :
    (stepRow pow msOf cfg t m).startingPrinciple =
      (coreRow cfg m (rowAt t (m - 1))).startingPrinciple :=
  rfl

theorem stepRow_endingPrinciple (pow : ℚ → ℚ → ℚ) (msOf : ℤ → ℚ)
    (cfg : InvestmentConfig) (t : List TableRow) (m : ℕ) :
    (stepRow pow msOf cfg t m).endingPrinciple =
      (coreRow cfg m (rowAt t (m - 1))).endingPrinciple :=
  rfl

theorem stepRow_returns (pow : ℚ → ℚ → ℚ) (msOf : ℤ → ℚ)
    (cfg : InvestmentConfig) (t : List TableRow) (m : ℕ) :
    (stepRow pow msOf cfg t m).returns =
      (coreRow cfg m (rowAt t (m - 1))).returns :=
  rfl

theorem stepRow_fees (pow : ℚ → ℚ → ℚ) (msOf : ℤ → ℚ)
    (cfg : InvestmentConfig) (t : List TableRow) (m : ℕ) :
    (stepRow pow msOf cfg t m).fees =
      (coreRow cfg m (rowAt t (m - 1))).fees :=
  rfl

theorem stepRow_valueWithoutFees (pow : ℚ → ℚ → ℚ) (msOf : ℤ → ℚ)
    (cfg : InvestmentConfig) (t : List TableRow) (m : ℕ) :
    (stepRow pow msOf cfg t m).valueWithoutFees =
      (coreRow cfg m (rowAt t (m - 1))).valueWithoutFees :=
  rfl

theorem stepRow_cumulativeFees (pow : ℚ → ℚ → ℚ) (msOf : ℤ → ℚ)
    (cfg : InvestmentConfig) (t : List TableRow) (m : ℕ) :
    (stepRow pow msOf cfg t m).cumulativeFees =
      (coreRow cfg m (rowAt t (m - 1))).cumulativeFees :=
  rfl

theorem stepRow_cumulativeContributions (pow : ℚ → ℚ → ℚ) (msOf : ℤ → ℚ)
    (cfg : InvestmentConfig) (t : List TableRow) (m : ℕ) :
    (stepRow pow msOf cfg t m).cumulativeContributions =
      (coreRow cfg m (rowAt t (m - 1))).cumulativeContributions :=
  rfl

theorem stepRow_momGrossReturnRate (pow : ℚ → ℚ → ℚ) (msOf : ℤ → ℚ)
    (cfg : InvestmentConfig) (t : List TableRow) (m : ℕ) :
    (stepRow pow msOf cfg t m).momGrossReturnRate =
      (coreRow cfg m (rowAt t (m - 1))).momGrossReturnRate :=
  rfl

theorem stepRow_totalNetReturnRate (pow : ℚ → ℚ → ℚ) (msOf : ℤ → ℚ)
    (cfg : InvestmentConfig) (t : List TableRow) (m : ℕ) :
    (stepRow pow msOf cfg t m).totalNetReturnRate =
      (coreRow cfg m (rowAt t (m - 1))).totalNetReturnRate :=
  rfl

theorem stepRow_timeWeightedReturn (pow : ℚ → ℚ → ℚ) (msOf : ℤ → ℚ)
    (cfg : InvestmentConfig) (t : List TableRow) (m : ℕ) :
    (stepRow pow msOf cfg t m).timeWeightedReturn =
      calculateTimeWeightedReturn cfg
        (t ++ [coreRow cfg m (rowAt t (m - 1))]) m :=
  rfl

theorem stepRow_moneyWeightedReturn (pow : ℚ → ℚ → ℚ) (msOf : ℤ → ℚ)
    (cfg : InvestmentConfig) (t : List TableRow) (m : ℕ) :
    (stepRow pow msOf cfg t m).moneyWeightedReturn =
      calculateMoneyWeightedReturn pow msOf cfg
        (t ++ [coreRow cfg m (rowAt t (m - 1))]) m :=
  rfl

theorem coreRow_startingPrinciple (cfg : InvestmentConfig) (m : ℕ) (p : TableRow) :
    (coreRow cfg m p).startingPrinciple =
      (if cfg.global.monthly_contribution > 0 then
        p.endingPrinciple + cfg.global.monthly_contribution
      else p.endingPrinciple) :=
  rfl

theorem coreRow_cumulativeContributions (cfg : InvestmentConfig) (m : ℕ) (p : TableRow) :
    (coreRow cfg m p).cumulativeContributions =
      (if cfg.global.monthly_contribution > 0 then
        p.cumulativeContributions + cfg.global.monthly_contribution
      else p.cumulativeContributions) :=
  rfl

theorem coreRow_returns (cfg : InvestmentConfig) (m : ℕ) (p : TableRow) :
    (coreRow cfg m p).returns =
      (coreRow cfg m p).startingPrinciple * getMonthlyReturnRate cfg m :=
  rfl

theorem coreRow_fees (cfg : InvestmentConfig) (m : ℕ) (p : TableRow) :
    (coreRow cfg m p).fees =
      calculateMonthlyFees cfg
        ((coreRow cfg m p).startingPrinciple + (coreRow cfg m p).returns) :=
  rfl

theorem coreRow_endingPrinciple (cfg : InvestmentConfig) (m : ℕ) (p : TableRow) :
    (coreRow cfg m p).endingPrinciple =
      (coreRow cfg m p).startingPrinciple + (coreRow cfg m p).returns -
        (coreRow cfg m p).fees :=
  rfl

theorem coreRow_cumulativeFees (cfg : InvestmentConfig) (m : ℕ) (p : TableRow) :
    (coreRow cfg m p).cumulativeFees = p.cumulativeFees + (coreRow cfg m p).fees :=
  rfl

theorem coreRow_momGrossReturnRate (cfg : InvestmentConfig) (m : ℕ) (p : TableRow) :
    (coreRow cfg m p).momGrossReturnRate = getMonthlyReturnRate cfg m * 100 :=
  rfl

theorem coreRow_totalNetReturnRate (cfg : InvestmentConfig) (m : ℕ) (p : TableRow) :
    (coreRow cfg m p).totalNetReturnRate =
      ((coreRow cfg m p).endingPrinciple /
        (coreRow cfg m p).cumulativeContributions - 1) * 100 :=
  rfl

theorem coreRow_valueWithoutFees (cfg : InvestmentConfig) (m : ℕ) (p : TableRow) :
    (coreRow cfg m p).valueWithoutFees =
      (if cfg.global.monthly_contribution > 0 then
        p.valueWithoutFees + cfg.global.monthly_contribution +
          (p.valueWithoutFees + cfg.global.monthly_contribution) *
            getMonthlyReturnRate cfg m
      else
        p.valueWithoutFees + p.valueWithoutFees * getMonthlyReturnRate cfg m) :=
  rfl

theorem calculateMonthlyFees_foldl (p : ℚ) :
    ∀ (l : List Fee) (a : ℚ),
      l.foldl (fun total fee => total + p * (fee.value / fee.applied_time_unit)) a =
        a + p * (l.map (fun fee => fee.value / fee.applied_time_unit)).sum := by
  intro l
  induction l with
  | nil => intro a; simp
  | cons f fs ih =>
    intro a
    rw [List.foldl_cons, ih, List.map_cons, List.sum_cons]
    ring

theorem calculateMonthlyFees_eq (cfg : InvestmentConfig) (p : ℚ) :
    calculateMonthlyFees cfg p = p * feeRateSum cfg := by
  rw [calculateMonthlyFees, feeRateSum, calculateMonthlyFees_foldl]
  ring

/-! ## Claim theorems -/

/-- C9: for every configuration, row 0 of the returned sequence has both
principals equal to the configured starting principal and all flow and
rate fields (returns, fees, cumulative fees, fee percentage, and every
return-rate metric including TWRR and MWRR) equal to zero. -/
theorem spec_c9_identity_row (pow : ℚ → ℚ → ℚ) (msOf : ℤ → ℚ)
    (cfg : InvestmentConfig) :
    (rowAt (calculate pow msOf cfg) 0).startingPrinciple =
        cfg.global.starting_principle ∧
    (rowAt (calculate pow msOf cfg) 0).endingPrinciple =
        cfg.global.starting_principle ∧
    (rowAt (calculate pow msOf cfg) 0).returns = 0 ∧
    (rowAt (calculate pow msOf cfg) 0).fees = 0 ∧
    (rowAt (calculate pow msOf cfg) 0).cumulativeFees = 0 ∧
    (rowAt (calculate pow msOf cfg) 0).feesPercentage = 0 ∧
    (rowAt (calculate pow msOf cfg) 0).momGrossReturnRate = 0 ∧
    (rowAt (calculate pow msOf cfg) 0).totalGrossReturnRate = 0 ∧
    (rowAt (calculate pow msOf cfg) 0).momNetReturnRate = 0 ∧
    (rowAt (calculate pow msOf cfg) 0).momNetExclContribReturnRate = 0 ∧
    (rowAt (calculate pow msOf cfg) 0).totalNetReturnRate = 0 ∧
    (rowAt (calculate pow msOf cfg) 0).timeWeightedReturn = 0 ∧
    (rowAt (calculate pow msOf cfg) 0).moneyWeightedReturn = 0 := by
  rw [calculate, rowAt_calcTable_zero]
  exact ⟨rfl, rfl, rfl, rfl, rfl, rfl, rfl, rfl, rfl, rfl, rfl, rfl, rfl⟩

theorem month_of_rowAt_calcTable (pow : ℚ → ℚ → ℚ) (msOf : ℤ → ℚ)
    (cfg : InvestmentConfig) : ∀ n i, i ≤ n →
    (rowAt (calcTable pow msOf cfg n) i).month = i := by
  intro n
  induction n with
  | zero =>
    intro i h; cases Nat.le_zero.mp h
    rw [rowAt_calcTable_zero]; rfl
  | succ n ih =>
    intro i h
    rcases Nat.lt_succ_iff_lt_or_eq.mp (Nat.lt_succ_of_le h) with h' | h'
    · rw [rowAt_calcTable_step pow msOf cfg (Nat.lt_succ_iff.mp h')]
      exact ih i (Nat.lt_succ_iff.mp h')
    · subst h'
      rw [rowAt_calcTable_last]
      exact stepRow_month pow msOf cfg _ _

/-- C6: the resolved month count is `num_months` when positive, otherwise
the year/month span; `calculate` returns `monthCount + 1` rows whose month
indices are 0 through `monthCount` in order; and a non-positive resolved
month count yields the single row 0 with no error. -/
theorem spec_c6_month_count_and_rows (pow : ℚ → ℚ → ℚ) (msOf : ℤ → ℚ)
    (cfg : InvestmentConfig) :
    calculateMonthDifference cfg =
      (if cfg.global.num_months > 0 then cfg.global.num_months
       else (cfg.global.endYear - cfg.global.startYear) * 12 +
         (cfg.global.endMonth - cfg.global.startMonth)) ∧
    (0 ≤ calculateMonthDifference cfg →
      ((calculate pow msOf cfg).length : ℤ) = calculateMonthDifference cfg + 1) ∧
    (∀ i, i < (calculate pow msOf cfg).length →
      (rowAt (calculate pow msOf cfg) i).month = i) ∧
    (calculateMonthDifference cfg ≤ 0 →
      calculate pow msOf cfg = [initRow cfg]) := by
  refine ⟨rfl, ?_, ?_, ?_⟩
  · intro h
    rw [calculate, calcTable_length]
    omega
  · intro i hi
    rw [calculate, calcTable_length] at hi
    exact month_of_rowAt_calcTable pow msOf cfg _ i (Nat.lt_succ_iff.mp hi)
  · intro h
    rw [calculate]
    have : (calculateMonthDifference cfg).toNat = 0 := Int.toNat_of_nonpos h
    rw [this]
    rfl

/-- C7: the return rate used for step `m` is the override's stored
percentage divided by 100 when an override entry exists for month `m`,
exactly zero when that entry carries the "empty" marker, and otherwise the
default monthly rate `returns.value / returns.applied_time_unit`. -/
theorem spec_c7_rate_resolution (pow : ℚ → ℚ → ℚ) (msOf : ℤ → ℚ)
    (cfg : InvestmentConfig) (m : ℕ) (hm : 1 ≤ m)
    (hN : m ≤ (calculateMonthDifference cfg).toNat) :
    getMonthlyReturnRate cfg m = specResolvedRate cfg m ∧
    (rowAt (calculate pow msOf cfg) m).momGrossReturnRate =
      specResolvedRate cfg m * 100 := by
  have hres : getMonthlyReturnRate cfg m = specResolvedRate cfg m := by
    rcases hmr : cfg.monthlyReturns with _ | l
    · simp [getMonthlyReturnRate, specResolvedRate, hmr]
    · cases l with
      | nil => simp [getMonthlyReturnRate, specResolvedRate, hmr]
      | cons a as => simp [getMonthlyReturnRate, specResolvedRate, hmr]
  refine ⟨hres, ?_⟩
  obtain ⟨k, rfl⟩ : ∃ k, m = k + 1 := ⟨m - 1, by omega⟩
  rw [calculate, rowAt_calcTable_eq_stepRow pow msOf cfg hN,
    stepRow_momGrossReturnRate, coreRow_momGrossReturnRate, hres]

theorem coreRow_fees_nonneg (cfg : InvestmentConfig) (m : ℕ) (p : TableRow)
    (hp : 0 ≤ p.endingPrinciple)
    (hfees : ∀ f ∈ cfg.fees, 0 ≤ f.value / f.applied_time_unit)
    (hsum : feeRateSum cfg ≤ 1)
    (hrate : -1 ≤ getMonthlyReturnRate cfg m) :
    0 ≤ (coreRow cfg m p).fees ∧ 0 ≤ (coreRow cfg m p).endingPrinciple := by
  have hS0 : 0 ≤ feeRateSum cfg := by
    refine List.sum_nonneg ?_
    intro x hx
    obtain ⟨f, hf, rfl⟩ := List.mem_map.mp hx
    exact hfees f hf
  have hsp : 0 ≤ (coreRow cfg m p).startingPrinciple := by
    rw [coreRow_startingPrinciple]
    split
    · linarith
    · exact hp
  have hpaf : 0 ≤ (coreRow cfg m p).startingPrinciple + (coreRow cfg m p).returns := by
    rw [coreRow_returns]
    have h1 : (coreRow cfg m p).startingPrinciple +
        (coreRow cfg m p).startingPrinciple * getMonthlyReturnRate cfg m =
        (coreRow cfg m p).startingPrinciple * (1 + getMonthlyReturnRate cfg m) := by
      ring
    rw [h1]
    exact mul_nonneg hsp (by linarith)
  have hfee : (coreRow cfg m p).fees =
      ((coreRow cfg m p).startingPrinciple + (coreRow cfg m p).returns) *
        feeRateSum cfg := by
    rw [coreRow_fees, calculateMonthlyFees_eq]
  constructor
  · rw [hfee]
    exact mul_nonneg hpaf hS0
  · rw [coreRow_endingPrinciple, hfee]
    nlinarith

theorem ending_nonneg_calcTable (pow : ℚ → ℚ → ℚ) (msOf : ℤ → ℚ)
    (cfg : InvestmentConfig)
    (hsp : 0 ≤ cfg.global.starting_principle)
    (hfees : ∀ f ∈ cfg.fees, 0 ≤ f.value / f.applied_time_unit)
    (hsum : feeRateSum cfg ≤ 1)
    (hrate : ∀ k, -1 ≤ getMonthlyReturnRate cfg k) :
    ∀ m, 0 ≤ (rowAt (calcTable pow msOf cfg m) m).endingPrinciple := by
  intro m
  induction m with
  | zero => rw [rowAt_calcTable_zero]; exact hsp
  | succ m ih =>
    rw [rowAt_calcTable_last, stepRow_endingPrinciple]
    have h : m + 1 - 1 = m := rfl
    rw [h]
    exact (coreRow_fees_nonneg cfg (m + 1) _ ih hfees hsum (hrate (m + 1))).2

/-- C8 (amended): `cumulativeContributions` is monotonically non-decreasing
for every configuration; `cumulativeFees` is monotonically non-decreasing
provided the starting principal is nonnegative, every fee's per-month rate
is nonnegative, the fee rates sum to at most 1, and every resolved monthly
return rate is at least −100% (without these restrictions a negative fee
value or a sub-−100% return makes the monthly fee negative). -/
theorem spec_c8_monotone_accumulators (pow : ℚ → ℚ → ℚ) (msOf : ℤ → ℚ)
    (cfg : InvestmentConfig) :
    (∀ m : ℕ, 1 ≤ m → m ≤ (calculateMonthDifference cfg).toNat →
      (rowAt (calculate pow msOf cfg) (m - 1)).cumulativeContributions ≤
        (rowAt (calculate pow msOf cfg) m).cumulativeContributions) ∧
    (0 ≤ cfg.global.starting_principle →
      (∀ f ∈ cfg.fees, 0 ≤ f.value / f.applied_time_unit) →
      feeRateSum cfg ≤ 1 →
      (∀ k, -1 ≤ getMonthlyReturnRate cfg k) →
      ∀ m : ℕ, 1 ≤ m → m ≤ (calculateMonthDifference cfg).toNat →
        (rowAt (calculate pow msOf cfg) (m - 1)).cumulativeFees ≤
          (rowAt (calculate pow msOf cfg) m).cumulativeFees) := by
  constructor
  · intro m hm hN
    obtain ⟨k, rfl⟩ : ∃ k, m = k + 1 := ⟨m - 1, by omega⟩
    rw [calculate, rowAt_calcTable_eq_stepRow pow msOf cfg hN,
      stepRow_cumulativeContributions, coreRow_cumulativeContributions]
    have h : k + 1 - 1 = k := rfl
    rw [h, rowAt_calcTable_of_le pow msOf cfg (by omega : k ≤ (calculateMonthDifference cfg).toNat)]
    split
    · linarith
    · exact le_refl _
  · intro hsp hfees hsum hrate m hm hN
    obtain ⟨k, rfl⟩ : ∃ k, m = k + 1 := ⟨m - 1, by omega⟩
    rw [calculate, rowAt_calcTable_eq_stepRow pow msOf cfg hN,
      stepRow_cumulativeFees, coreRow_cumulativeFees]
    have h : k + 1 - 1 = k := rfl
    rw [h, rowAt_calcTable_of_le pow msOf cfg (by omega : k ≤ (calculateMonthDifference cfg).toNat)]
    have hend := ending_nonneg_calcTable pow msOf cfg hsp hfees hsum hrate k
    have hfee := (coreRow_fees_nonneg cfg (k + 1) _ hend hfees hsum (hrate (k + 1))).1
    linarith

theorem cumContrib_eq_sp (pow : ℚ → ℚ → ℚ) (msOf : ℤ → ℚ)
    (cfg : InvestmentConfig) (hc : cfg.global.monthly_contribution = 0) :
    ∀ m, (rowAt (calcTable pow msOf cfg m) m).cumulativeContributions =
      cfg.global.starting_principle := by
  intro m
  induction m with
  | zero => rw [rowAt_calcTable_zero]; rfl
  | succ m ih =>
    rw [rowAt_calcTable_last, stepRow_cumulativeContributions,
      coreRow_cumulativeContributions]
    have h : m + 1 - 1 = m := rfl
    rw [h, hc]
    simpa using ih

theorem mwrr_oracle_free (pow pow' : ℚ → ℚ → ℚ) (msOf msOf' : ℤ → ℚ)
    (cfg : InvestmentConfig) (hc : cfg.global.monthly_contribution = 0)
    (table : List TableRow) (m : ℕ) :
    calculateMoneyWeightedReturn pow msOf cfg table m =
      calculateMoneyWeightedReturn pow' msOf' cfg table m := by
  rw [calculateMoneyWeightedReturn, calculateMoneyWeightedReturn, hc]
  simp

theorem calcTable_oracle_free (pow pow' : ℚ → ℚ → ℚ) (msOf msOf' : ℤ → ℚ)
    (cfg : InvestmentConfig) (hc : cfg.global.monthly_contribution = 0) :
    ∀ n, calcTable pow msOf cfg n = calcTable pow' msOf' cfg n := by
  intro n
  induction n with
  | zero => rfl
  | succ n ih =>
    rw [calcTable_succ, calcTable_succ, ih, stepRow_eq_update, stepRow_eq_update,
      mwrr_oracle_free pow pow' msOf msOf' cfg hc]

/-- C2 (amended): with a zero monthly contribution, row `m`'s
`moneyWeightedReturn` equals its `totalNetReturnRate`, and no root-finding
is performed (the result does not depend on the floating-point model
`pow`/`msOf`), provided the month-`m` resolved return rate equals the
default monthly rate — the source's single-flow replay always uses the
default rate, so a month-`m` override breaks the equality (see the
counterexample). -/
theorem spec_c2_mwrr_no_contributions (pow : ℚ → ℚ → ℚ) (msOf : ℤ → ℚ)
    (cfg : InvestmentConfig) (m : ℕ) (hm : 1 ≤ m)
    (hN : m ≤ (calculateMonthDifference cfg).toNat)
    (hc : cfg.global.monthly_contribution = 0)
    (hr : getMonthlyReturnRate cfg m = defaultMonthlyReturnRate cfg) :
    (rowAt (calculate pow msOf cfg) m).moneyWeightedReturn =
      (rowAt (calculate pow msOf cfg) m).totalNetReturnRate ∧
    (∀ (pow' : ℚ → ℚ → ℚ) (msOf' : ℤ → ℚ),
      (rowAt (calculate pow' msOf' cfg) m).moneyWeightedReturn =
        (rowAt (calculate pow msOf cfg) m).moneyWeightedReturn) := by
  obtain ⟨k, rfl⟩ : ∃ k, m = k + 1 := ⟨m - 1, by omega⟩
  constructor
  · rw [calculate, rowAt_calcTable_eq_stepRow pow msOf cfg hN,
      stepRow_moneyWeightedReturn, stepRow_totalNetReturnRate,
      calculateMoneyWeightedReturn, hc]
    have hk : k + 1 - 1 = k := rfl
    rw [hk]
    have hprev : rowAt
        (calcTable pow msOf cfg k ++
          [coreRow cfg (k + 1) (rowAt (calcTable pow msOf cfg k) k)]) k =
        rowAt (calcTable pow msOf cfg k) k :=
      rowAt_append_of_lt _ _ _ (by rw [calcTable_length]; omega)
    rw [hprev, coreRow_totalNetReturnRate, coreRow_endingPrinciple,
      coreRow_fees, coreRow_returns, coreRow_startingPrinciple,
      coreRow_cumulativeContributions, hc, hr,
      cumContrib_eq_sp pow msOf cfg hc k]
    simp
  · intro pow' msOf'
    rw [calculate, calculate,
      calcTable_oracle_free pow' pow msOf' msOf cfg hc]

theorem calcTable_negContrib_agree (pow : ℚ → ℚ → ℚ) (msOf : ℤ → ℚ)
    (cfg : InvestmentConfig) (hc : cfg.global.monthly_contribution < 0) :
    ∀ n m, m ≤ n →
      (rowAt (calcTable pow msOf cfg n) m).startingPrinciple =
        (rowAt (calcTable pow msOf (zeroContrib cfg) n) m).startingPrinciple ∧
      (rowAt (calcTable pow msOf cfg n) m).endingPrinciple =
        (rowAt (calcTable pow msOf (zeroContrib cfg) n) m).endingPrinciple ∧
      (rowAt (calcTable pow msOf cfg n) m).cumulativeContributions =
        (rowAt (calcTable pow msOf (zeroContrib cfg) n) m).cumulativeContributions ∧
      (rowAt (calcTable pow msOf cfg n) m).cumulativeFees =
        (rowAt (calcTable pow msOf (zeroContrib cfg) n) m).cumulativeFees ∧
      (rowAt (calcTable pow msOf cfg n) m).valueWithoutFees =
        (rowAt (calcTable pow msOf (zeroContrib cfg) n) m).valueWithoutFees := by
  have hng : ¬ cfg.global.monthly_contribution > 0 := by linarith
  have hng0 : ¬ (zeroContrib cfg).global.monthly_contribution > 0 := by
    rw [zeroContrib]
    exact lt_irrefl 0
  have hrate : ∀ k, getMonthlyReturnRate (zeroContrib cfg) k =
      getMonthlyReturnRate cfg k := fun k => rfl
  have hmf : ∀ x, calculateMonthlyFees (zeroContrib cfg) x =
      calculateMonthlyFees cfg x := fun x => rfl
  intro n
  induction n with
  | zero =>
    intro m hm; cases Nat.le_zero.mp hm
    rw [rowAt_calcTable_zero, rowAt_calcTable_zero]
    exact ⟨rfl, rfl, rfl, rfl, rfl⟩
  | succ n ih =>
    intro m hm
    rcases Nat.lt_succ_iff_lt_or_eq.mp (Nat.lt_succ_of_le hm) with h' | h'
    · rw [rowAt_calcTable_step pow msOf cfg (Nat.lt_succ_iff.mp h'),
        rowAt_calcTable_step pow msOf (zeroContrib cfg) (Nat.lt_succ_iff.mp h')]
      exact ih m (Nat.lt_succ_iff.mp h')
    · subst h'
      obtain ⟨hsp, hep, hcc, hcf, hvwf⟩ := ih n (le_refl n)
      rw [rowAt_calcTable_last, rowAt_calcTable_last,
        stepRow_startingPrinciple, stepRow_startingPrinciple,
        stepRow_endingPrinciple, stepRow_endingPrinciple,
        stepRow_cumulativeContributions, stepRow_cumulativeContributions,
        stepRow_cumulativeFees, stepRow_cumulativeFees,
        stepRow_valueWithoutFees, stepRow_valueWithoutFees]
      have hk : n + 1 - 1 = n := rfl
      rw [hk]
      have h1 : (coreRow cfg (n + 1) (rowAt (calcTable pow msOf cfg n) n)).startingPrinciple =
          (coreRow (zeroContrib cfg) (n + 1)
            (rowAt (calcTable pow msOf (zeroContrib cfg) n) n)).startingPrinciple := by
        rw [coreRow_startingPrinciple, coreRow_startingPrinciple,
          if_neg hng, if_neg hng0, hep]
      have h2 : (coreRow cfg (n + 1) (rowAt (calcTable pow msOf cfg n) n)).returns =
          (coreRow (zeroContrib cfg) (n + 1)
            (rowAt (calcTable pow msOf (zeroContrib cfg) n) n)).returns := by
        rw [coreRow_returns, coreRow_returns, h1, hrate]
      have h3 : (coreRow cfg (n + 1) (rowAt (calcTable pow msOf cfg n) n)).fees =
          (coreRow (zeroContrib cfg) (n + 1)
            (rowAt (calcTable pow msOf (zeroContrib cfg) n) n)).fees := by
        rw [coreRow_fees, coreRow_fees, h1, h2, hmf]
      refine ⟨h1, ?_, ?_, ?_, ?_⟩
      · rw [coreRow_endingPrinciple, coreRow_endingPrinciple, h1, h2, h3]
      · rw [coreRow_cumulativeContributions, coreRow_cumulativeContributions,
          if_neg hng, if_neg hng0, hcc]
      · rw [coreRow_cumulativeFees, coreRow_cumulativeFees, hcf, h3]
      · rw [coreRow_valueWithoutFees, coreRow_valueWithoutFees,
          if_neg hng, if_neg hng0, hvwf, hrate]

/-- C10: a strictly negative monthly contribution is never applied — the
principal trajectory (starting and ending principals, cumulative
contributions, and the fee-free shadow balance) coincides month by month
with that of the same configuration with a zero contribution, because every
contribution step is guarded by a strict `monthly_contribution > 0` test. -/
theorem spec_c10_negative_contribution_ignored (pow : ℚ → ℚ → ℚ)
    (msOf : ℤ → ℚ) (cfg : InvestmentConfig)
    (hc : cfg.global.monthly_contribution < 0) :
    (calculate pow msOf cfg).length =
      (calculate pow msOf (zeroContrib cfg)).length ∧
    (∀ m, m ≤ (calculateMonthDifference cfg).toNat →
      (rowAt (calculate pow msOf cfg) m).startingPrinciple =
        (rowAt (calculate pow msOf (zeroContrib cfg)) m).startingPrinciple ∧
      (rowAt (calculate pow msOf cfg) m).endingPrinciple =
        (rowAt (calculate pow msOf (zeroContrib cfg)) m).endingPrinciple ∧
      (rowAt (calculate pow msOf cfg) m).cumulativeContributions =
        (rowAt (calculate pow msOf (zeroContrib cfg)) m).cumulativeContributions ∧
      (rowAt (calculate pow msOf cfg) m).valueWithoutFees =
        (rowAt (calculate pow msOf (zeroContrib cfg)) m).valueWithoutFees) := by
  have hMD : calculateMonthDifference (zeroContrib cfg) =
      calculateMonthDifference cfg := rfl
  constructor
  · rw [calculate, calculate, calcTable_length, hMD, calcTable_length]
  · intro m hm
    have h := calcTable_negContrib_agree pow msOf cfg hc
      (calculateMonthDifference cfg).toNat m hm
    rw [calculate, calculate, hMD]
    exact ⟨h.1, h.2.1, h.2.2.1, h.2.2.2.2⟩

theorem irrLoop_count_le (npvD : ℚ → ℚ × ℚ) :
    ∀ (fuel : ℕ) (rate : ℚ), (irrLoop npvD fuel rate).2 ≤ fuel := by
  intro fuel
  induction fuel with
  | zero => intro rate; exact le_refl 0
  | succ fuel ih =>
    intro rate
    rw [irrLoop]
    dsimp only
    split
    · exact Nat.succ_le_succ (Nat.zero_le fuel)
    · split
      · exact Nat.succ_le_succ (Nat.zero_le fuel)
      · split
        · exact Nat.succ_le_succ (Nat.zero_le fuel)
        · exact Nat.succ_le_succ (ih _)

/-- C4: for every equal-length cash-flow/date schedule (and every model of
the floating-point NPV arithmetic) the Newton-Raphson IRR solver performs
at most 100 iterations and returns a rate — never an error. -/
theorem spec_c4_irr_terminates (pow : ℚ → ℚ → ℚ) (msOf : ℤ → ℚ)
    (cashFlows : List ℚ) (dates : List ℤ)
    (h : cashFlows.length = dates.length) :
    calculateImprovedIRR pow msOf cashFlows dates =
      Except.ok (irrSolve pow msOf cashFlows dates) ∧
    irrIterations pow msOf cashFlows dates ≤ 100 := by
  refine ⟨?_, irrLoop_count_le _ 100 _⟩
  rw [calculateImprovedIRR, if_neg (by omega)]

/-- Instantiation of the C4 theorem at a concrete schedule, discharging
its equal-length hypothesis. -/
theorem spec_c4_witness :
    calculateImprovedIRR powZero msZero [-(100 : ℚ), 110] [0, 12] =
      Except.ok (irrSolve powZero msZero [-(100 : ℚ), 110] [0, 12]) ∧
    irrIterations powZero msZero [-(100 : ℚ), 110] [0, 12] ≤ 100 :=
  spec_c4_irr_terminates powZero msZero [-(100 : ℚ), 110] [0, 12] rfl

/-- C5: the IRR helper errors exactly on mismatched schedule lengths; the
error does not depend on the NPV arithmetic (it is raised before any
iteration); and the branch is unreachable from `calculate` — every
schedule the money-weighted-return calculation builds has cash flows and
dates of equal length, so the helper returns a rate there. -/
theorem spec_c5_irr_error_handling (pow : ℚ → ℚ → ℚ) (msOf : ℤ → ℚ) :
    (∀ (cashFlows : List ℚ) (dates : List ℤ),
      (∃ e, calculateImprovedIRR pow msOf cashFlows dates = Except.error e) ↔
        cashFlows.length ≠ dates.length) ∧
    (∀ (cashFlows : List ℚ) (dates : List ℤ),
      cashFlows.length ≠ dates.length →
      ∀ (pow' : ℚ → ℚ → ℚ) (msOf' : ℤ → ℚ),
        calculateImprovedIRR pow msOf cashFlows dates =
          calculateImprovedIRR pow' msOf' cashFlows dates) ∧
    (∀ (cfg : InvestmentConfig) (table : List TableRow) (m : ℕ),
      (mwrrCashFlows cfg table m).length = (mwrrDates cfg table m).length) ∧
    (∀ (cfg : InvestmentConfig) (table : List TableRow) (m : ℕ),
      calculateImprovedIRR pow msOf (mwrrCashFlows cfg table m)
          (mwrrDates cfg table m) =
        Except.ok (irrSolve pow msOf (mwrrCashFlows cfg table m)
          (mwrrDates cfg table m))) := by
  have hlen : ∀ (cfg : InvestmentConfig) (table : List TableRow) (m : ℕ),
      (mwrrCashFlows cfg table m).length = (mwrrDates cfg table m).length := by
    intro cfg table m
    rw [mwrrCashFlows, mwrrDates]
    by_cases hc : cfg.global.monthly_contribution ≠ 0
    · rw [if_pos hc, if_pos hc]
      simp only [List.length_append, List.length_map]
      rfl
    · rw [if_neg hc, if_neg hc]
      rfl
  refine ⟨?_, ?_, hlen, ?_⟩
  · intro cashFlows dates
    constructor
    · rintro ⟨e, he⟩
      by_contra h
      rw [calculateImprovedIRR, if_neg (fun hne => hne h)] at he
      exact Except.noConfusion he
    · intro h
      rw [calculateImprovedIRR, if_pos h]
      exact ⟨_, rfl⟩
  · intro cashFlows dates h pow' msOf'
    rw [calculateImprovedIRR, calculateImprovedIRR, if_pos h, if_pos h]
  · intro cfg table m
    rw [calculateImprovedIRR,
      if_neg (fun hne => hne (hlen cfg table m))]

theorem singlePeriodReturn_eq_spec (cfg : InvestmentConfig)
    (table : List TableRow) (i : ℕ) :
    calculateSinglePeriodReturn cfg table i = specPeriodReturn cfg table i := by
  rw [calculateSinglePeriodReturn, specPeriodReturn]
  by_cases hc : cfg.global.monthly_contribution > 0
  · rw [if_pos hc, if_pos hc]
  · rw [if_neg hc, if_neg hc, sub_zero]

theorem foldl_geometric :
    ∀ (l : List ℚ) (a : ℚ),
      l.foldl (fun acc r => acc * (1 + r / 100)) a =
        a * (l.map (fun r => 1 + r / 100)).prod := by
  intro l
  induction l with
  | nil => intro a; simp
  | cons x xs ih =>
    intro a
    rw [List.foldl_cons, ih, List.map_cons, List.prod_cons]
    ring

theorem calculateTWRR_eq_spec (cfg : InvestmentConfig)
    (table : List TableRow) (k : ℕ) :
    calculateTimeWeightedReturn cfg table (k + 1) =
      specTWRR cfg (defaultMonthlyReturnRate cfg) table (k + 1) := by
  rw [calculateTimeWeightedReturn, specTWRR, if_neg (Nat.succ_ne_zero k)]
  dsimp only
  rw [show k + 1 - 1 = k from rfl]
  rw [foldl_geometric, List.map_append, List.prod_append, one_mul]
  have hfun : ((fun r => 1 + r / 100) ∘
      fun i => calculateSinglePeriodReturn cfg table i) =
      fun i => 1 + specPeriodReturn cfg table i / 100 := by
    funext i
    simp [Function.comp, singlePeriodReturn_eq_spec]
  rw [List.map_map, hfun]
  simp only [List.map_cons, List.map_nil, List.prod_cons, List.prod_nil, mul_one]
  set sv := (rowAt table k).endingPrinciple with hsv
  set d := defaultMonthlyReturnRate cfg with hd
  by_cases hc : cfg.global.monthly_contribution > 0
  · simp only [if_pos hc]
    rw [show sv + cfg.global.monthly_contribution +
        (sv + cfg.global.monthly_contribution) * d =
        (sv + cfg.global.monthly_contribution) * (1 + d) from by ring]
  · simp only [if_neg hc, add_zero, sub_zero]
    rw [if_neg (lt_irrefl (0 : ℚ)), show sv + sv * d = sv * (1 + d) from by ring]

theorem specPeriodReturn_congr (cfg : InvestmentConfig)
    (t1 t2 : List TableRow) (i : ℕ) (h1 : rowAt t1 i = rowAt t2 i)
    (h2 : rowAt t1 (i - 1) = rowAt t2 (i - 1)) :
    specPeriodReturn cfg t1 i = specPeriodReturn cfg t2 i := by
  rw [specPeriodReturn, specPeriodReturn, h1, h2]

theorem specTWRR_congr (cfg : InvestmentConfig) (rate : ℚ)
    (t1 t2 : List TableRow) (k : ℕ)
    (h : ∀ j, j ≤ k → rowAt t1 j = rowAt t2 j) :
    specTWRR cfg rate t1 (k + 1) = specTWRR cfg rate t2 (k + 1) := by
  rw [specTWRR, specTWRR]
  rw [show k + 1 - 1 = k from rfl, h k (le_refl k)]
  have hfac : List.map (fun i => 1 + specPeriodReturn cfg t1 i / 100)
      (List.range' 1 k) =
      List.map (fun i => 1 + specPeriodReturn cfg t2 i / 100)
        (List.range' 1 k) := by
    refine List.map_congr_left ?_
    intro i hi
    have hik : 1 ≤ i ∧ i < 1 + k := by
      have := List.mem_range'_1.mp hi
      exact this
    rw [specPeriodReturn_congr cfg t1 t2 i
      (h i (by omega)) (h (i - 1) (by omega))]
  rw [hfac]

/-- C1 (amended): the `timeWeightedReturn` of row `m` is the geometric
linking of the per-period returns
`r_i = (endValue_i - contribution_i) / startValue_i - 1` (as percentages)
over the committed periods `1..m-1`, combined with a current-period return
`r_m` replayed locally by the step-4.2 mechanics — but with the month-`m`
rate taken to be the **default** monthly rate: the replay does not consult
the month-`m` override resolution (the claim's override-resolving variant
fails, see the counterexample). -/
theorem spec_c1_twrr_geometric_linking (pow : ℚ → ℚ → ℚ) (msOf : ℤ → ℚ)
    (cfg : InvestmentConfig) (m : ℕ) (hm : 1 ≤ m)
    (hN : m ≤ (calculateMonthDifference cfg).toNat) :
    (rowAt (calculate pow msOf cfg) m).timeWeightedReturn =
      specTWRRDefault cfg (calculate pow msOf cfg) m := by
  obtain ⟨k, rfl⟩ : ∃ k, m = k + 1 := ⟨m - 1, by omega⟩
  rw [calculate, rowAt_calcTable_eq_stepRow pow msOf cfg hN,
    stepRow_timeWeightedReturn, calculateTWRR_eq_spec, specTWRRDefault]
  apply specTWRR_congr
  intro j hj
  rw [rowAt_append_of_lt _ _ _ (by rw [calcTable_length]; omega),
    rowAt_calcTable_of_le pow msOf cfg hj,
    rowAt_calcTable_of_le pow msOf cfg
      (by omega : j ≤ (calculateMonthDifference cfg).toNat)]

/-- Instantiation of the C1 theorem at a concrete configuration,
discharging its hypotheses. -/
theorem spec_c1_witness :
    (rowAt (calculate powZero msZero cfgPlain) 1).timeWeightedReturn =
      specTWRRDefault cfgPlain (calculate powZero msZero cfgPlain) 1 :=
  spec_c1_twrr_geometric_linking powZero msZero cfgPlain 1 (by decide)
    (by decide)

/-- Instantiation of the C7 theorem at a configuration carrying an
override, discharging its hypotheses. -/
theorem spec_c7_witness :
    (rowAt (calculate powZero msZero cfgOverride) 1).momGrossReturnRate =
      specResolvedRate cfgOverride 1 * 100 :=
  (spec_c7_rate_resolution powZero msZero cfgOverride 1 (by decide)
    (by decide)).2

/-- Instantiation of the C6 theorem at a concrete configuration,
discharging its hypotheses. -/
theorem spec_c6_witness :
    (0 ≤ calculateMonthDifference cfgPlain ∧
      ((calculate powZero msZero cfgPlain).length : ℤ) =
        calculateMonthDifference cfgPlain + 1) ∧
    (2 < (calculate powZero msZero cfgPlain).length ∧
      (rowAt (calculate powZero msZero cfgPlain) 2).month = 2) := by
  have h := spec_c6_month_count_and_rows powZero msZero cfgPlain
  have hlen : ((calculate powZero msZero cfgPlain).length : ℤ) =
      calculateMonthDifference cfgPlain + 1 := h.2.1 (by decide)
  have hmd : calculateMonthDifference cfgPlain = 2 := by decide
  rw [hmd] at hlen
  have hlt : 2 < (calculate powZero msZero cfgPlain).length := by omega
  exact ⟨⟨by decide, hlen⟩, hlt, h.2.2.1 2 hlt⟩

/-! ## Concrete evaluations

The Batteries `Rat` arithmetic operations are `@[irreducible]`; they are
made semireducible locally so that `decide` can evaluate the engine on
concrete configurations. -/

section ConcreteEvaluation

attribute [local semireducible] Rat.mul Rat.inv Rat.add Rat.sub

/-- C3: with starting principal 100, zero contribution, a 12%/12 annual
return and a single 12%/12 annual fee, row 1 has return exactly 1.00, fee
exactly 1.01 (computed on the post-return principal 101), and ending
principal exactly 99.99 — the contribute → return → fee order. -/
theorem spec_c3_returns_then_fees :
    (rowAt (calculate powZero msZero cfgC3) 1).returns = 1 ∧
    (rowAt (calculate powZero msZero cfgC3) 1).fees = 101 / 100 ∧
    (rowAt (calculate powZero msZero cfgC3) 1).startingPrinciple +
        (rowAt (calculate powZero msZero cfgC3) 1).returns = 101 ∧
    (rowAt (calculate powZero msZero cfgC3) 1).endingPrinciple = 9999 / 100 := by
  decide

/-- Counterexample to C1 as stated: with a 50% override on month 1, the
override-resolving replay formula gives 50 while the code's TWRR for row 1
is 1 (the replay uses the default monthly rate). -/
theorem spec_c1_counterexample :
    (rowAt (calculate powZero msZero cfgOverride) 1).timeWeightedReturn ≠
      specTWRRResolved cfgOverride (calculate powZero msZero cfgOverride) 1 := by
  decide

/-- Counterexample to C2 as stated: `cfgOverride` has a zero monthly
contribution, yet row 1's `moneyWeightedReturn` (1, replayed with the
default rate) differs from its `totalNetReturnRate` (50, from the
override-driven table row). -/
theorem spec_c2_counterexample :
    cfgOverride.global.monthly_contribution = 0 ∧
    (rowAt (calculate powZero msZero cfgOverride) 1).moneyWeightedReturn ≠
      (rowAt (calculate powZero msZero cfgOverride) 1).totalNetReturnRate := by
  decide

/-- Counterexample to C8 as stated: a configuration with a negative fee
value makes `cumulativeFees` strictly decrease from row 0 to row 1. -/
theorem spec_c8_counterexample :
    (rowAt (calculate powZero msZero cfgNegFee) 1).cumulativeFees <
      (rowAt (calculate powZero msZero cfgNegFee) 0).cumulativeFees := by
  decide

/-- Instantiation of the C5 theorem at concrete schedules: a mismatched
pair errors, and a schedule built by the MWRR calculation returns a rate. -/
theorem spec_c5_witness :
    (∃ e, calculateImprovedIRR powZero msZero [(1 : ℚ)] ([] : List ℤ) =
      Except.error e) ∧
    calculateImprovedIRR powZero msZero (mwrrCashFlows cfgPlain [] 1)
        (mwrrDates cfgPlain [] 1) =
      Except.ok (irrSolve powZero msZero (mwrrCashFlows cfgPlain [] 1)
        (mwrrDates cfgPlain [] 1)) := by
  have h := spec_c5_irr_error_handling powZero msZero
  exact ⟨(h.1 [(1 : ℚ)] []).mpr (by decide), h.2.2.2 cfgPlain [] 1⟩

/-- Instantiation of the C2 theorem at a concrete configuration,
discharging its hypotheses. -/
theorem spec_c2_witness :
    (rowAt (calculate powZero msZero cfgPlain) 1).moneyWeightedReturn =
      (rowAt (calculate powZero msZero cfgPlain) 1).totalNetReturnRate :=
  (spec_c2_mwrr_no_contributions powZero msZero cfgPlain 1 (by decide)
    (by decide) rfl rfl).1

/-- Instantiation of the C8 theorem at a concrete configuration,
discharging its hypotheses. -/
theorem spec_c8_witness :
    (rowAt (calculate powZero msZero cfgPlain) 0).cumulativeFees ≤
      (rowAt (calculate powZero msZero cfgPlain) 1).cumulativeFees ∧
    (rowAt (calculate powZero msZero cfgPlain) 0).cumulativeContributions ≤
      (rowAt (calculate powZero msZero cfgPlain) 1).cumulativeContributions := by
  have h := spec_c8_monotone_accumulators powZero msZero cfgPlain
  exact ⟨h.2 (by decide) (by decide) (by decide)
      (fun k => by
        rw [show getMonthlyReturnRate cfgPlain k =
          defaultMonthlyReturnRate cfgPlain from rfl]
        decide) 1
      (by decide) (by decide),
    h.1 1 (by decide) (by decide)⟩

/-- Instantiation of the C10 theorem at a concrete configuration,
discharging its negative-contribution hypothesis. -/
theorem spec_c10_witness :
    cfgNegContrib.global.monthly_contribution < 0 ∧
    (rowAt (calculate powZero msZero cfgNegContrib) 2).endingPrinciple =
      (rowAt (calculate powZero msZero
        (zeroContrib cfgNegContrib)) 2).endingPrinciple := by
  have h := spec_c10_negative_contribution_ignored powZero msZero
    cfgNegContrib (by decide)
  exact ⟨by decide, (h.2 2 (by decide)).2.1⟩

end ConcreteEvaluation

end FeeImpact
